import Mathlib

/-!
Verification of the health-monitoring core of the repository
(`backend-ai/health_monitoring/`): configuration and dependency-ordered
startup (`config.py`), service lifecycle management (`service_manager.py`),
the orchestrator (`health_monitor.py`) and the credential check
(`dependency_validator.py`).  Python functions are shallowly embedded as
Lean functions; Python dicts are association lists in insertion order;
`datetime` values are second counts; code that can raise returns `Except`.
-/

namespace HealthMonitoring

/-- The string order used by the Python `list.sort()` on `str` values:
lexicographic comparison of the character (code point) sequences.  This is
the same relation as `String` `≤`, stated on `toList` so that it evaluates
by `decide`. -/
def strle (a b : String) : Prop := a.toList ≤ b.toList

instance : DecidableRel strle := fun a b => inferInstanceAs (Decidable (a.toList ≤ b.toList))

theorem strle_iff (a b : String) : strle a b ↔ a ≤ b := String.le_iff_toList_le.symm

instance : IsTotal String strle :=
  ⟨fun a b => (le_total a b).imp (strle_iff a b).mpr (strle_iff b a).mpr⟩

instance : IsTrans String strle :=
  ⟨fun a b c h1 h2 =>
    (strle_iff a c).mpr (le_trans ((strle_iff a b).mp h1) ((strle_iff b c).mp h2))⟩

/-! ## Data model (`models.py`) -/

/-- The `ServiceStatus` enum from `models.py`. -/
inductive ServiceStatus where
  | running
  | stopped
  | error
  | starting
  | stopping
deriving DecidableEq

/-- The `OverallStatus` enum from `models.py`. -/
inductive OverallStatus where
  | healthy
  | degraded
  | unhealthy
deriving DecidableEq

/-- The `IssueSeverity` enum from `models.py`. -/
inductive IssueSeverity where
  | critical
  | warning
  | info
deriving DecidableEq

/-- The `ServiceHealth` dataclass from `models.py`.  Timestamps and durations are
modelled as second counts. -/
structure ServiceHealth where
  name : String
  status : ServiceStatus
  port : Nat
  url : String
  response_time : Option Nat := none
  last_check : Option Nat := none
  error_message : Option String := none
  process_id : Option Nat := none
  resource_usage : Option (List (String × Nat)) := none
  uptime : Option Nat := none
deriving DecidableEq

/-- The `Issue` dataclass from `models.py`. -/
structure Issue where
  severity : IssueSeverity
  component : String
  message : String
  suggested_action : String
  timestamp : Nat := 0
deriving DecidableEq

/-- The `DependencyStatus` dataclass from `models.py`.  Note its exact field
list: there is no field named `api_keys_ok`. -/
structure DependencyStatus where
  python_deps_ok : Bool := false
  node_deps_ok : Bool := false
  api_keys_configured : Bool := false
  missing_python_deps : List String := []
  missing_node_deps : List String := []
  missing_api_keys : List String := []
deriving DecidableEq

/-- The field names accepted by the generated `DependencyStatus.__init__`,
from the dataclass declaration in `models.py`. -/
def dependencyStatusFieldNames : List String :=
  ["python_deps_ok", "node_deps_ok", "api_keys_configured",
   "missing_python_deps", "missing_node_deps", "missing_api_keys"]

/-- The `HealthStatus` dataclass from `models.py`. -/
structure HealthStatus where
  overall_status : OverallStatus
  services : List (String × ServiceHealth) := []
  dependencies : DependencyStatus := {}
  last_check : Nat := 0
  issues : List Issue := []
deriving DecidableEq

/-- The `StartupResult` dataclass from `models.py`. -/
structure StartupResult where
  success : Bool
  message : String
  failed_services : List String := []
  started_services : List String := []
deriving DecidableEq

/-! ## Configuration (`config.py`) -/

/-- The `ServiceConfig` dataclass from `config.py`. -/
structure ServiceConfig where
  name : String
  port : Nat
  health_endpoint : String
  startup_command : String
  startup_args : List String
  working_directory : String
  environment_vars : List (String × String)
  dependencies : List String
  startup_timeout : Nat := 30
  health_check_timeout : Nat := 5
deriving DecidableEq

/-- The `services` dict of `HealthMonitorConfig`: name-keyed table of
service configurations, in insertion order. -/
abbrev ServicesTable := List (String × ServiceConfig)

/-- The `HealthMonitorConfig.get_all_services`: the list of configured service
names (`list(self.services.keys())`). -/
def get_all_services (services : ServicesTable) : List String :=
  services.map Prod.fst

/-- The `HealthMonitorConfig.get_service_config`: raises
`ValueError(f"Unknown service: {service_name}")` for a name that is not a
key of the table. -/
def get_service_config (services : ServicesTable) (service_name : String) :
    Except String ServiceConfig :=
  match services.lookup service_name with
  | none => Except.error ("Unknown service: " ++ service_name)
  | some c => Except.ok c

/-- The dependency list of a service: `self.services[service].dependencies`.
Only ever evaluated at configured names in the source. -/
def depsOf (services : ServicesTable) (service : String) : List String :=
  match services.lookup service with
  | some c => c.dependencies
  | none => []

/-- One selection step of `get_startup_order`: the services of `remaining`
whose dependency sets are contained in `ordered`
(`deps.issubset(set(ordered))`). -/
def readyList (services : ServicesTable) (ordered remaining : List String) :
    List String :=
  remaining.filter (fun s => (depsOf services s).all (fun d => ordered.contains d))

/-- The `ready` list actually used by an iteration of `get_startup_order`:
the ready services if there are any, otherwise (circular or missing
dependency) the entire remaining set. -/
def pickReady (services : ServicesTable) (ordered remaining : List String) :
    List String :=
  if (readyList services ordered remaining).isEmpty then remaining
  else readyList services ordered remaining

/-- The `while remaining:` loop of `HealthMonitorConfig.get_startup_order`,
with one unit of fuel per iteration (`none` = the loop would still be
running after `fuel` iterations).  Each iteration sorts the selected
services alphabetically, appends them to `ordered`, and removes them from
`remaining`. -/
def startupAux (services : ServicesTable) :
    Nat → List String → List String → Option (List String)
  | _, ordered, [] => some ordered
  | 0, _, _ :: _ => none
  | fuel + 1, ordered, s :: rem =>
      startupAux services fuel
        (ordered ++ (pickReady services ordered (s :: rem)).insertionSort strle)
        ((s :: rem).filter (fun x => !(pickReady services ordered (s :: rem)).contains x))

/-- The `HealthMonitorConfig.get_startup_order`.  The loop is run with
`(number of services)` fuel; `startupAux_isSome` proves this is always
enough. -/
def get_startup_order (services : ServicesTable) : List String :=
  (startupAux services (get_all_services services).length [] (get_all_services services)).getD []

/-- The per-iteration batches of `get_startup_order`: same loop as
`startupAux`, but recording each sorted `ready` batch separately. -/
def startupRounds (services : ServicesTable) :
    Nat → List String → List String → Option (List (List String))
  | _, _, [] => some []
  | 0, _, _ :: _ => none
  | fuel + 1, ordered, s :: rem =>
      (startupRounds services fuel
        (ordered ++ (pickReady services ordered (s :: rem)).insertionSort strle)
        ((s :: rem).filter (fun x => !(pickReady services ordered (s :: rem)).contains x))).map
        (fun rs => (pickReady services ordered (s :: rem)).insertionSort strle :: rs)

/-! ## Basic lemmas about the startup order -/

theorem filter_contains_self (l : List String) :
    l.filter (fun s => l.contains s) = l := by
  rw [List.filter_eq_self]
  intro a ha
  simpa using ha

theorem filter_contains_filter (p : String → Bool) (l : List String) :
    l.filter (fun s => (l.filter p).contains s) = l.filter p := by
  apply List.filter_congr
  intro a ha
  cases hpa : p a with
  | true => simp [List.mem_filter, ha, hpa]
  | false => simp [List.mem_filter, hpa]

/-- The services selected in one iteration are exactly the members of
`remaining` that the iteration removes. -/
theorem filter_contains_pickReady (services : ServicesTable)
    (ordered remaining : List String) :
    remaining.filter (fun s => (pickReady services ordered remaining).contains s) =
      pickReady services ordered remaining := by
  unfold pickReady readyList
  split
  · exact filter_contains_self remaining
  · exact filter_contains_filter
      (fun s => (depsOf services s).all (fun d => ordered.contains d)) remaining

/-- One iteration only reshuffles `remaining`: the sorted batch plus the
rest is a permutation of `remaining`. -/
theorem pickReady_step_perm (services : ServicesTable)
    (ordered remaining : List String) :
    ((pickReady services ordered remaining).insertionSort strle ++
        remaining.filter (fun x => !(pickReady services ordered remaining).contains x)).Perm
      remaining := by
  have h1 : ((pickReady services ordered remaining).insertionSort strle).Perm
      (pickReady services ordered remaining) :=
    List.perm_insertionSort strle _
  refine ((h1.append_right _).trans ?_)
  have h2 := List.filter_append_perm
    (fun s => (pickReady services ordered remaining).contains s) remaining
  rw [filter_contains_pickReady] at h2
  exact h2

/-- The loop always reaches `remaining = []` within `remaining.length`
iterations: each iteration removes at least one service (the fallback
iteration removes all of them). -/
theorem startupAux_isSome (services : ServicesTable) :
    ∀ (fuel : Nat) (remaining ordered : List String), remaining.length ≤ fuel →
      ∃ l, startupAux services fuel ordered remaining = some l := by
  intro fuel
  induction fuel with
  | zero =>
      intro remaining ordered h
      have : remaining = [] := List.length_eq_zero.mp (Nat.le_zero.mp h)
      subst this
      exact ⟨ordered, rfl⟩
  | succ n ih =>
      intro remaining ordered h
      cases remaining with
      | nil => exact ⟨ordered, rfl⟩
      | cons s rem =>
          rw [startupAux]
          apply ih
          cases hready : (readyList services ordered (s :: rem)).isEmpty with
          | true =>
              have : (s :: rem).filter
                  (fun x => !(pickReady services ordered (s :: rem)).contains x) = [] := by
                rw [List.filter_eq_nil_iff]
                intro a ha
                simp [pickReady, hready, ha]
              rw [this]
              exact Nat.zero_le n
          | false =>
              have hlt : ((s :: rem).filter
                  (fun x => !(pickReady services ordered (s :: rem)).contains x)).length <
                  (s :: rem).length := by
                rw [List.length_filter_lt_length_iff_exists]
                have hne : readyList services ordered (s :: rem) ≠ [] := by
                  intro hnil
                  rw [hnil] at hready
                  simp at hready
                obtain ⟨x, hx⟩ := List.exists_mem_of_ne_nil _ hne
                refine ⟨x, List.mem_of_mem_filter hx, ?_⟩
                simp [pickReady, hready]
                exact hx
              omega

/-- Whatever the loop returns is `ordered` followed by a permutation of
`remaining`. -/
theorem startupAux_perm (services : ServicesTable) :
    ∀ (fuel : Nat) (remaining ordered l : List String),
      startupAux services fuel ordered remaining = some l →
      l.Perm (ordered ++ remaining) := by
  intro fuel
  induction fuel with
  | zero =>
      intro remaining ordered l h
      cases remaining with
      | nil =>
          simp only [startupAux, Option.some.injEq] at h
          subst h
          simp
      | cons s rem => simp [startupAux] at h
  | succ n ih =>
      intro remaining ordered l h
      cases remaining with
      | nil =>
          simp only [startupAux, Option.some.injEq] at h
          subst h
          simp
      | cons s rem =>
          rw [startupAux] at h
          have h1 := ih _ _ _ h
          refine h1.trans ?_
          rw [List.append_assoc]
          exact List.Perm.append_left ordered (pickReady_step_perm services ordered (s :: rem))

/-- The function `get_startup_order` returns a permutation of the configured service
names. -/
theorem get_startup_order_perm (services : ServicesTable) :
    (get_startup_order services).Perm (get_all_services services) := by
  obtain ⟨l, hl⟩ := startupAux_isSome services (get_all_services services).length
    (get_all_services services) [] (Nat.le_refl _)
  have := startupAux_perm services _ _ _ _ hl
  rw [get_startup_order, hl]
  simpa using this

/-- The "fail open" fallback of `get_startup_order`: when no service
qualifies, the iteration selects the entire remaining set, so the loop ends
with all of it appended in sorted order. -/
theorem startupAux_fallback (services : ServicesTable) (fuel : Nat)
    (ordered : List String) (s : String) (rem : List String)
    (h : readyList services ordered (s :: rem) = []) :
    startupAux services (fuel + 1) ordered (s :: rem) =
      some (ordered ++ (s :: rem).insertionSort strle) := by
  rw [startupAux]
  have hp : pickReady services ordered (s :: rem) = s :: rem := by
    unfold pickReady
    rw [h]
    rfl
  rw [hp]
  have hfil : (s :: rem).filter (fun x => !(s :: rem).contains x) = [] := by
    rw [List.filter_eq_nil_iff]
    intro a ha
    simp [ha]
  rw [hfil]
  cases fuel <;> rfl

/-- The loop output decomposes into the per-iteration batches, and every
batch is sorted by name (the Python `ready.sort()`). -/
theorem startupRounds_spec (services : ServicesTable) :
    ∀ (fuel : Nat) (remaining ordered l : List String),
      startupAux services fuel ordered remaining = some l →
      ∃ rs, startupRounds services fuel ordered remaining = some rs ∧
        l = ordered ++ rs.flatten ∧ ∀ r ∈ rs, List.Sorted strle r := by
  intro fuel
  induction fuel with
  | zero =>
      intro remaining ordered l h
      cases remaining with
      | nil =>
          simp only [startupAux, Option.some.injEq] at h
          subst h
          exact ⟨[], rfl, by simp, by simp⟩
      | cons s rem => simp [startupAux] at h
  | succ n ih =>
      intro remaining ordered l h
      cases remaining with
      | nil =>
          simp only [startupAux, Option.some.injEq] at h
          subst h
          exact ⟨[], rfl, by simp, by simp⟩
      | cons s rem =>
          rw [startupAux] at h
          obtain ⟨rs, h1, h2, h3⟩ := ih _ _ _ h
          refine ⟨(pickReady services ordered (s :: rem)).insertionSort strle :: rs,
            ?_, ?_, ?_⟩
          · rw [startupRounds, h1]
            rfl
          · rw [h2]
            simp [List.append_assoc]
          · intro r hr
            rcases List.mem_cons.mp hr with hr | hr
            · rw [hr]
              exact List.sorted_insertionSort strle _
            · exact h3 r hr

/-- Predicate stating that `l` lists every service after all of its declared dependencies. -/
def depsRespected (services : ServicesTable) (l : List String) : Prop :=
  ∀ l1 s l2, l = l1 ++ s :: l2 → ∀ d ∈ depsOf services s, d ∈ l1

theorem depsRespected_append (services : ServicesTable) (xs ys : List String)
    (hxs : depsRespected services xs)
    (hys : ∀ s ∈ ys, ∀ d ∈ depsOf services s, d ∈ xs) :
    depsRespected services (xs ++ ys) := by
  intro l1 s l2 heq d hd
  rcases List.append_eq_append_iff.mp heq with ⟨a', hc, hb⟩ | ⟨c', ha, hd'⟩
  · have hs : s ∈ ys := by
      rw [hb]
      exact List.mem_append_right a' (List.mem_cons_self s l2)
    rw [hc]
    exact List.mem_append_left a' (hys s hs d hd)
  · cases c' with
    | nil =>
        have hxl : xs = l1 := by simpa using ha
        have hs : s ∈ ys := by
          have hys' : s :: l2 = ys := by simpa using hd'
          rw [← hys']
          exact List.mem_cons_self s l2
        rw [← hxl]
        exact hys s hs d hd
    | cons c0 ct =>
        have hs : s = c0 := by
          have := hd'
          simp only [List.cons_append] at this
          exact (List.cons.injEq s l2 c0 (ct ++ ys)).mp this |>.1
        have hxs2 : xs = l1 ++ s :: ct := by
          rw [ha, hs]
        exact hxs l1 s ct hxs2 d hd

theorem exists_min_rank (rank : String → Nat) :
    ∀ (l : List String), l ≠ [] → ∃ m ∈ l, ∀ b ∈ l, rank m ≤ rank b := by
  intro l
  induction l with
  | nil => intro h; exact absurd rfl h
  | cons a t ih =>
      intro _
      cases t with
      | nil =>
          refine ⟨a, List.mem_singleton_self a, ?_⟩
          intro b hb
          rw [List.mem_singleton.mp hb]
      | cons b' t' =>
          obtain ⟨m, hm, hmin⟩ := ih (by simp)
          rcases le_total (rank a) (rank m) with hle | hle
          · refine ⟨a, List.mem_cons_self _ _, ?_⟩
            intro b hb
            rcases List.mem_cons.mp hb with h | h
            · rw [h]
            · exact le_trans hle (hmin b h)
          · refine ⟨m, List.mem_cons_of_mem _ hm, ?_⟩
            intro b hb
            rcases List.mem_cons.mp hb with h | h
            · rw [h]
              exact hle
            · exact hmin b h

/-- With a rank function witnessing acyclicity and all dependencies
available, some service is always ready: a service of minimal rank has all
its dependencies already ordered. -/
theorem readyList_ne_nil (services : ServicesTable) (rank : String → Nat)
    (ordered remaining : List String) (hne : remaining ≠ [])
    (h1 : ∀ s ∈ remaining, ∀ d ∈ depsOf services s, rank d < rank s)
    (h2 : ∀ s ∈ remaining, ∀ d ∈ depsOf services s, d ∈ ordered ∨ d ∈ remaining) :
    readyList services ordered remaining ≠ [] := by
  obtain ⟨m, hm, hmin⟩ := exists_min_rank rank remaining hne
  intro hnil
  have hmem : m ∈ readyList services ordered remaining := by
    rw [readyList, List.mem_filter]
    refine ⟨hm, ?_⟩
    rw [List.all_eq_true]
    intro d hd
    rcases h2 m hm d hd with h | h
    · simpa using h
    · exact absurd (h1 m hm d hd) (not_lt.mpr (hmin d h))
  rw [hnil] at hmem
  exact (List.not_mem_nil m) hmem

/-- Invariant induction for the dependency ordering: provided every
remaining service has smaller-ranked dependencies that are either already
ordered or still remaining, the loop output respects dependencies. -/
theorem startupAux_depsRespected (services : ServicesTable) (rank : String → Nat) :
    ∀ (fuel : Nat) (remaining ordered l : List String),
      startupAux services fuel ordered remaining = some l →
      (∀ s ∈ remaining, ∀ d ∈ depsOf services s, rank d < rank s) →
      (∀ s ∈ remaining, ∀ d ∈ depsOf services s, d ∈ ordered ∨ d ∈ remaining) →
      depsRespected services ordered →
      depsRespected services l := by
  intro fuel
  induction fuel with
  | zero =>
      intro remaining ordered l h h1 h2 h3
      cases remaining with
      | nil =>
          simp only [startupAux, Option.some.injEq] at h
          subst h
          exact h3
      | cons s rem => simp [startupAux] at h
  | succ n ih =>
      intro remaining ordered l h h1 h2 h3
      cases remaining with
      | nil =>
          simp only [startupAux, Option.some.injEq] at h
          subst h
          exact h3
      | cons s rem =>
          rw [startupAux] at h
          have hready := readyList_ne_nil services rank ordered (s :: rem) (by simp) h1 h2
          have hpick : pickReady services ordered (s :: rem) =
              readyList services ordered (s :: rem) := by
            unfold pickReady
            have hfalse : (readyList services ordered (s :: rem)).isEmpty = false := by
              simpa using hready
            rw [hfalse]
            rfl
          have hsortmem : ∀ x, x ∈ (pickReady services ordered (s :: rem)).insertionSort strle ↔
              x ∈ pickReady services ordered (s :: rem) := fun x =>
            (List.perm_insertionSort strle _).mem_iff
          refine ih _ _ _ h ?_ ?_ ?_
          · intro s' hs' d hd
            exact h1 s' (List.mem_of_mem_filter hs') d hd
          · intro s' hs' d hd
            rcases h2 s' (List.mem_of_mem_filter hs') d hd with hcase | hcase
            · exact Or.inl (List.mem_append_left _ hcase)
            · by_cases hd2 : d ∈ pickReady services ordered (s :: rem)
              · exact Or.inl (List.mem_append_right _ ((hsortmem d).mpr hd2))
              · refine Or.inr (List.mem_filter.mpr ⟨hcase, ?_⟩)
                simpa using hd2
          · refine depsRespected_append services ordered _ h3 ?_
            intro s' hs' d hd
            have hs'' : s' ∈ readyList services ordered (s :: rem) := by
              rw [← hpick]
              exact (hsortmem s').mp hs'
            have hall := (List.mem_filter.mp hs'').2
            rw [List.all_eq_true] at hall
            simpa using hall d hd

theorem mem_of_lookup_eq_some {β : Type} :
    ∀ (l : List (String × β)) (a : String) (b : β),
      l.lookup a = some b → (a, b) ∈ l := by
  intro l
  induction l with
  | nil => intro a b h; simp [List.lookup] at h
  | cons p t ih =>
      intro a b h
      obtain ⟨k, v⟩ := p
      rw [List.lookup] at h
      by_cases hk : a = k
      · subst hk
        simp at h
        rw [h]
        exact List.mem_cons_self _ _
      · have hbeq : (a == k) = false := by
          simpa using hk
        rw [hbeq] at h
        exact List.mem_cons_of_mem _ (ih a b h)

theorem depsOf_spec (services : ServicesTable) (s d : String)
    (hd : d ∈ depsOf services s) :
    ∃ c, (s, c) ∈ services ∧ d ∈ c.dependencies := by
  unfold depsOf at hd
  cases hl : services.lookup s with
  | none => rw [hl] at hd; simp at hd
  | some c =>
      rw [hl] at hd
      exact ⟨c, mem_of_lookup_eq_some services s c hl, hd⟩

/-- The `ServiceManager.stop_all_services`: iterates the reverse of
`get_startup_order`, stopping each name that has a controller; the
controller map is keyed by exactly the configured service names
(`_initialize_controllers`), so this is the order in which `stop_service`
is called. -/
def stop_all_services_order (services : ServicesTable) : List String :=
  (get_startup_order services).reverse.filter
    (fun s => (get_all_services services).contains s)

theorem stop_all_services_order_eq_reverse (services : ServicesTable) :
    stop_all_services_order services = (get_startup_order services).reverse := by
  rw [stop_all_services_order, List.filter_eq_self]
  intro a ha
  have h1 : a ∈ get_startup_order services := List.mem_reverse.mp ha
  have h2 : a ∈ get_all_services services :=
    (get_startup_order_perm services).mem_iff.mp h1
  simpa using h2

/-! ## Concrete service tables -/

/-- The "backend" entry of `HealthMonitorConfig._get_default_services`
(filesystem-dependent path fields abbreviated to fixed strings). -/
def backendConfig : ServiceConfig :=
  { name := "backend", port := 8000, health_endpoint := "/health",
    startup_command := "uvicorn",
    startup_args := ["main:app", "--host", "0.0.0.0", "--port", "8000", "--reload"],
    working_directory := "backend-ai", environment_vars := [],
    dependencies := [], startup_timeout := 45, health_check_timeout := 10 }

/-- The "frontend" entry of `HealthMonitorConfig._get_default_services`. -/
def frontendConfig : ServiceConfig :=
  { name := "frontend", port := 5173, health_endpoint := "/",
    startup_command := "npm", startup_args := ["run", "dev"],
    working_directory := "offline-ai-frontend",
    environment_vars := [("PORT", "5173")],
    dependencies := ["backend"], startup_timeout := 60, health_check_timeout := 10 }

/-- The default service table built by `HealthMonitorConfig.__init__`:
"backend" with no dependencies, "frontend" depending on "backend". -/
def defaultServices : ServicesTable :=
  [("backend", backendConfig), ("frontend", frontendConfig)]

/-- Acyclicity witness for the default table. -/
def defaultRank : String → Nat := fun s => if s = "frontend" then 1 else 0

theorem get_startup_order_default :
    get_startup_order defaultServices = ["backend", "frontend"] := by decide

/-- A table with a circular dependency: "alpha" depends on "beta" and
"beta" depends on "alpha". -/
def cyclicServices : ServicesTable :=
  [("alpha",
    { name := "alpha", port := 1, health_endpoint := "/", startup_command := "run",
      startup_args := [], working_directory := ".", environment_vars := [],
      dependencies := ["beta"] }),
   ("beta",
    { name := "beta", port := 2, health_endpoint := "/", startup_command := "run",
      startup_args := [], working_directory := ".", environment_vars := [],
      dependencies := ["alpha"] })]

theorem get_startup_order_cyclic :
    get_startup_order cyclicServices = ["alpha", "beta"] := by decide

/-! ## Claims C3 and C4 -/

/-- C3: for every service table whose dependency graph is acyclic
(witnessed by a rank function decreasing along dependencies) and whose
dependency names all reference configured services, `get_startup_order()`
contains every configured service exactly once and nothing else, places
every service after all of its declared dependencies, consists of
per-round batches of simultaneously-ready services each sorted in
lexicographic name order, and `stop_all_services` iterates exactly the
reverse of that list. -/
theorem startup_order_topological
    (services : ServicesTable) (rank : String → Nat)
    (hnodup : (get_all_services services).Nodup)
    (hclosed : ∀ p ∈ services, ∀ d ∈ p.2.dependencies, d ∈ get_all_services services)
    (hrank : ∀ p ∈ services, ∀ d ∈ p.2.dependencies, rank d < rank p.1) :
    (∀ s ∈ get_all_services services, (get_startup_order services).count s = 1) ∧
    (∀ s ∈ get_startup_order services, s ∈ get_all_services services) ∧
    depsRespected services (get_startup_order services) ∧
    (∃ rs, startupRounds services (get_all_services services).length []
        (get_all_services services) = some rs ∧
      get_startup_order services = rs.flatten ∧ ∀ r ∈ rs, List.Sorted strle r) ∧
    stop_all_services_order services = (get_startup_order services).reverse := by
  obtain ⟨l, hl⟩ := startupAux_isSome services (get_all_services services).length
    (get_all_services services) [] (Nat.le_refl _)
  have horder : get_startup_order services = l := by
    rw [get_startup_order, hl]
    rfl
  have hperm : (get_startup_order services).Perm (get_all_services services) :=
    get_startup_order_perm services
  have hdeps1 : ∀ s ∈ get_all_services services, ∀ d ∈ depsOf services s,
      rank d < rank s := by
    intro s _ d hd
    obtain ⟨c, hc, hdc⟩ := depsOf_spec services s d hd
    exact hrank (s, c) hc d hdc
  have hdeps2 : ∀ s ∈ get_all_services services, ∀ d ∈ depsOf services s,
      d ∈ ([] : List String) ∨ d ∈ get_all_services services := by
    intro s _ d hd
    obtain ⟨c, hc, hdc⟩ := depsOf_spec services s d hd
    exact Or.inr (hclosed (s, c) hc d hdc)
  refine ⟨?_, ?_, ?_, ?_, stop_all_services_order_eq_reverse services⟩
  · intro s hs
    rw [hperm.count_eq s]
    exact List.count_eq_one_of_mem hnodup hs
  · intro s hs
    exact hperm.mem_iff.mp hs
  · rw [horder]
    refine startupAux_depsRespected services rank _ _ _ _ hl hdeps1 hdeps2 ?_
    intro l1 s l2 heq
    exact absurd heq (by simp)
  · obtain ⟨rs, hrs, hflat, hsorted⟩ := startupRounds_spec services _ _ _ _ hl
    refine ⟨rs, hrs, ?_, hsorted⟩
    rw [horder, hflat]
    rfl

/-- Witness for C3 at the default two-service table. -/
theorem startup_order_topological_witness :
    (get_startup_order defaultServices).count "backend" = 1 ∧
    (get_startup_order defaultServices).count "frontend" = 1 ∧
    depsRespected defaultServices (get_startup_order defaultServices) ∧
    stop_all_services_order defaultServices =
      (get_startup_order defaultServices).reverse := by
  have h := startup_order_topological defaultServices defaultRank
    (by decide) (by decide) (by decide)
  exact ⟨h.1 "backend" (by decide), h.1 "frontend" (by decide), h.2.2.1, h.2.2.2.2⟩

/-- C4: for every service table — circular or missing dependencies
included — the selection loop of `get_startup_order()` terminates within
(number of services) iterations and returns an ordering that is a
permutation of the configured names (hence contains every configured
service exactly once when names are distinct); whenever no service
qualifies for selection, the iteration appends the entire remaining set in
lexicographic order instead of failing. -/
theorem startup_order_total (services : ServicesTable) :
    (∃ l, startupAux services (get_all_services services).length []
        (get_all_services services) = some l ∧ get_startup_order services = l) ∧
    (get_startup_order services).Perm (get_all_services services) ∧
    ((get_all_services services).Nodup →
      ∀ s ∈ get_all_services services, (get_startup_order services).count s = 1) ∧
    (∀ (fuel : Nat) (ordered : List String) (s : String) (rem : List String),
      readyList services ordered (s :: rem) = [] →
      startupAux services (fuel + 1) ordered (s :: rem) =
        some (ordered ++ (s :: rem).insertionSort strle)) := by
  obtain ⟨l, hl⟩ := startupAux_isSome services (get_all_services services).length
    (get_all_services services) [] (Nat.le_refl _)
  have horder : get_startup_order services = l := by
    rw [get_startup_order, hl]
    rfl
  refine ⟨⟨l, hl, horder⟩, get_startup_order_perm services, ?_, ?_⟩
  · intro hnodup s hs
    rw [(get_startup_order_perm services).count_eq s]
    exact List.count_eq_one_of_mem hnodup hs
  · intro fuel ordered s rem h
    exact startupAux_fallback services fuel ordered s rem h

/-- Witness for C4 at the two-service cyclic table. -/
theorem startup_order_total_witness :
    (get_startup_order cyclicServices).count "alpha" = 1 ∧
    (get_startup_order cyclicServices).count "beta" = 1 ∧
    startupAux cyclicServices 1 [] ["alpha", "beta"] =
      some ([] ++ ["alpha", "beta"].insertionSort strle) := by
  have h := startup_order_total cyclicServices
  exact ⟨h.2.2.1 (by decide) "alpha" (by decide),
         h.2.2.1 (by decide) "beta" (by decide),
         h.2.2.2 0 [] "alpha" ["beta"] (by decide)⟩

/-! ## Service manager (`service_manager.py`)

`ServiceManager._initialize_controllers` creates one controller per entry
of `config.services`, so the controller map is keyed by exactly the
configured service names; "registered in the controller map" is
membership in `get_all_services`. -/

theorem lookup_some_of_mem_keys {β : Type} :
    ∀ (l : List (String × β)) (a : String), a ∈ l.map Prod.fst →
      ∃ b, l.lookup a = some b := by
  intro l
  induction l with
  | nil => intro a ha; simp at ha
  | cons p t ih =>
      intro a ha
      obtain ⟨k, v⟩ := p
      by_cases hk : a = k
      · subst hk
        exact ⟨v, by simp [List.lookup]⟩
      · have hbeq : (a == k) = false := by simpa using hk
        have hat : a ∈ t.map Prod.fst := by
          rw [List.map_cons] at ha
          rcases List.mem_cons.mp ha with h | h
          · exact absurd h hk
          · exact h
        obtain ⟨b, hb⟩ := ih a hat
        exact ⟨b, by simp [List.lookup, hbeq, hb]⟩

/-- The `ServiceManager.start_service`: a name without a controller yields a
failure result naming the unknown service; otherwise the call delegates to
the controller `start()`, abstracted as `ctrlStart` (which may raise). -/
def start_service (services : ServicesTable)
    (ctrlStart : String → Except String StartupResult)
    (service_name : String) : Except String StartupResult :=
  if !(get_all_services services).contains service_name then
    Except.ok
      { success := false, message := "Unknown service: " ++ service_name,
        failed_services := [service_name] }
  else ctrlStart service_name

/-- The `ServiceManager.stop_service`: same shape as `start_service`, with the
controller `stop()` abstracted as `ctrlStop`. -/
def stop_service (services : ServicesTable)
    (ctrlStop : String → Except String StartupResult)
    (service_name : String) : Except String StartupResult :=
  if !(get_all_services services).contains service_name then
    Except.ok
      { success := false, message := "Unknown service: " ++ service_name,
        failed_services := [service_name] }
  else ctrlStop service_name

/-- The `ServiceManager.check_service_health`.  The environment is abstracted:
`isRunning` is the controller `is_running()`, `portOpen` the
`PortChecker.is_port_open` result, `probe` the controller
`_check_health()` readiness probe (which may raise), `respTime`/`now`
measured times, `pid`/`resources`/`uptime` the controller process
bookkeeping.  For a name without a controller, the source first calls
`HealthMonitorConfig.get_service_config`, which raises `ValueError` for
exactly those names, so the structured "Unknown service" entry built just
below that call is unreachable. -/
def check_service_health (services : ServicesTable)
    (isRunning portOpen : Bool) (probe : Except String Bool)
    (respTime now : Nat) (pid : Option Nat)
    (resources : Option (List (String × Nat))) (uptime : Option Nat)
    (service_name : String) : Except String ServiceHealth :=
  if !(get_all_services services).contains service_name then
    match get_service_config services service_name with
    | Except.error e => Except.error e
    | Except.ok config =>
      Except.ok
        { name := service_name, status := ServiceStatus.error, port := config.port,
          url := "http://localhost:" ++ toString config.port,
          last_check := some now,
          error_message := some ("Unknown service: " ++ service_name) }
  else
    match get_service_config services service_name with
    | Except.error e => Except.error e
    | Except.ok config =>
    let healthRes : Bool × Option String :=
      if portOpen then
        match probe with
        | Except.ok b =>
            (b, if b then none else some "Service not responding to health checks")
        | Except.error e => (false, some ("Health check failed: " ++ e))
      else
        (false, some (if isRunning then
            "Port " ++ toString config.port ++ " is not accepting connections"
          else "Service process is not running"))
    let status :=
      if portOpen && healthRes.1 then ServiceStatus.running
      else if portOpen && !healthRes.1 then ServiceStatus.error
      else ServiceStatus.stopped
    Except.ok
      { name := service_name, status := status, port := config.port,
        url := "http://localhost:" ++ toString config.port,
        response_time := some respTime, last_check := some now,
        error_message := healthRes.2, process_id := pid,
        resource_usage := resources, uptime := uptime }

/-- The reported status of a health check, `none` when the check raised. -/
def statusOf (r : Except String ServiceHealth) : Option ServiceStatus :=
  r.toOption.map ServiceHealth.status

/-! ## Claim C5: operations on an unregistered name -/

/-- C5 (settled as a code bug): for a name that is not registered —
evaluated at `"database"` against the default table — `start_service` and
`stop_service` return structured failure results naming the unknown
service, but `check_service_health` does **not** return an `Error`-status
`ServiceHealth`: it propagates the `ValueError` raised by
`get_service_config`, contradicting the claim that none of the three
operations raises. -/
theorem unknown_service_operations :
    start_service defaultServices
        (fun _ => Except.ok ({ success := true, message := "" } : StartupResult))
        "database" =
      Except.ok ({ success := false, message := "Unknown service: database",
                   failed_services := ["database"] } : StartupResult) ∧
    stop_service defaultServices
        (fun _ => Except.ok ({ success := true, message := "" } : StartupResult))
        "database" =
      Except.ok ({ success := false, message := "Unknown service: database",
                   failed_services := ["database"] } : StartupResult) ∧
    check_service_health defaultServices false false (Except.ok false) 0 0 none none none
        "database" =
      Except.error "Unknown service: database" := by
  refine ⟨?_, ?_, ?_⟩ <;> rfl

/-! ## Claim C9: running status depends only on port and probe -/

/-- C9: for every registered service, the status reported by
`check_service_health` does not depend on the controller `is_running()`
value, and it is `running` exactly when the port probe succeeds and the
readiness probe returns `true` — in particular an externally-started
service (`isRunning = false`) with an open port and passing probe is
reported as running. -/
theorem check_service_health_ignores_process_handle
    (services : ServicesTable) (portOpen : Bool) (probe : Except String Bool)
    (respTime now : Nat) (pid : Option Nat)
    (resources : Option (List (String × Nat))) (uptime : Option Nat)
    (service_name : String)
    (hmem : service_name ∈ get_all_services services) :
    (∀ r₁ r₂ : Bool,
      statusOf (check_service_health services r₁ portOpen probe respTime now pid
        resources uptime service_name) =
      statusOf (check_service_health services r₂ portOpen probe respTime now pid
        resources uptime service_name)) ∧
    (∀ isRunning : Bool,
      statusOf (check_service_health services isRunning portOpen probe respTime now pid
          resources uptime service_name) = some ServiceStatus.running ↔
        portOpen = true ∧ probe = Except.ok true) := by
  have hcont : (get_all_services services).contains service_name = true := by
    simpa using hmem
  obtain ⟨c, hc⟩ := lookup_some_of_mem_keys services service_name hmem
  have hcfg : get_service_config services service_name = Except.ok c := by
    rw [get_service_config, hc]
  constructor
  · intro r₁ r₂
    cases portOpen with
    | false => simp [check_service_health, hcont, hcfg, statusOf, hmem, Except.toOption]
    | true =>
        cases probe with
        | ok b =>
            cases b <;>
              simp [check_service_health, hcont, hcfg, statusOf, hmem, Except.toOption]
        | error e => simp [check_service_health, hcont, hcfg, statusOf, hmem, Except.toOption]
  · intro isRunning
    cases portOpen with
    | false => simp [check_service_health, hcont, hcfg, statusOf, hmem, Except.toOption]
    | true =>
        cases probe with
        | ok b =>
            cases b <;>
              simp [check_service_health, hcont, hcfg, statusOf, hmem, Except.toOption]
        | error e => simp [check_service_health, hcont, hcfg, statusOf, hmem, Except.toOption]

/-- Witness for C9: the frontend service of the default table with a dead
process handle but an open port and passing probe is reported running. -/
theorem check_service_health_ignores_process_handle_witness :
    statusOf (check_service_health defaultServices false true (Except.ok true) 0 0
        none none none "frontend") = some ServiceStatus.running := by
  have h := check_service_health_ignores_process_handle defaultServices true
    (Except.ok true) 0 0 none none none "frontend" (by decide)
  exact (h.2 false).mpr ⟨rfl, rfl⟩

/-! ## Startup orchestration (`health_monitor.py`) -/

/-- The `HealthMonitor._stop_started_services`: the cleanup stops the started
services in `reversed(started_services)` order (each stop exception
is caught and logged, so every started service is visited). -/
def stop_started_services_order (started_services : List String) : List String :=
  started_services.reverse

/-- Whether a `ServiceManager.start_service` outcome counts as a failure in
the startup loop: a returned result with `success = False`, or a raised
exception. -/
def startFailed (r : Except String StartupResult) : Bool :=
  match r with
  | Except.ok res => !res.success
  | Except.error _ => true

/-- The `for service_name in startup_order:` loop of
`HealthMonitor.start_services`.  `env name` is the outcome of
`ServiceManager.start_service(name)` (a result, or a raised exception).
Returns the final `started_services` and `failed_services` lists together
with the rollback stop order (empty when no failure occurred). -/
def start_services_go (env : String → Except String StartupResult) :
    List String → List String → List String × List String × List String
  | [], started => (started, [], [])
  | name :: rest, started =>
      match env name with
      | Except.ok r =>
          if r.success then start_services_go env rest (started ++ [name])
          else (started, [name], stop_started_services_order started)
      | Except.error _ => (started, [name], stop_started_services_order started)

/-- The `HealthMonitor.start_services`.  Dependency validation is abstracted by
its outcome (`validationOk`, `validationMsg`); individual service starts
by `env`.  Returns the `StartupResult` and the rollback stop order. -/
def start_services (services : ServicesTable) (validationOk : Bool)
    (validationMsg : String) (env : String → Except String StartupResult) :
    StartupResult × List String :=
  if !validationOk then
    ({ success := false,
       message := "Dependency validation failed: " ++ validationMsg,
       failed_services := get_all_services services }, [])
  else
    let res := start_services_go env (get_startup_order services) []
    ({ success := res.2.1.isEmpty,
       message := if res.2.1.isEmpty then "All services started successfully"
         else "Failed to start: " ++ String.intercalate ", " res.2.1,
       started_services := res.1, failed_services := res.2.1 }, res.2.2)

theorem start_services_go_all_ok (env : String → Except String StartupResult) :
    ∀ (l started : List String),
      (∀ s ∈ l, ∃ r, env s = Except.ok r ∧ r.success = true) →
      start_services_go env l started = (started ++ l, [], []) := by
  intro l
  induction l with
  | nil => intro started _; simp [start_services_go]
  | cons name rest ih =>
      intro started hall
      obtain ⟨r, hr, hs⟩ := hall name (List.mem_cons_self _ _)
      rw [start_services_go, hr]
      simp only [hs, if_true]
      rw [ih (started ++ [name]) (fun s hsm => hall s (List.mem_cons_of_mem _ hsm))]
      simp

theorem start_services_go_first_fail (env : String → Except String StartupResult) :
    ∀ (pre : List String) (x : String) (rest started : List String),
      (∀ s ∈ pre, ∃ r, env s = Except.ok r ∧ r.success = true) →
      startFailed (env x) = true →
      start_services_go env (pre ++ x :: rest) started =
        (started ++ pre, [x], (started ++ pre).reverse) := by
  intro pre
  induction pre with
  | nil =>
      intro x rest started _ hx
      rw [List.nil_append, start_services_go]
      cases henv : env x with
      | ok r =>
          rw [henv] at hx
          have : r.success = false := by
            rw [startFailed] at hx
            simpa using hx
          simp [this, stop_started_services_order]
      | error e => simp [stop_started_services_order]
  | cons p pre' ih =>
      intro x rest started hpre hx
      obtain ⟨r, hr, hs⟩ := hpre p (List.mem_cons_self _ _)
      rw [List.cons_append, start_services_go, hr]
      simp only [hs, if_true]
      rw [ih x rest (started ++ [p])
        (fun s hsm => hpre s (List.mem_cons_of_mem _ hsm)) hx]
      simp

/-- C1: when dependency validation succeeds, `start_services` walks
`get_startup_order()`; at the first failing service it stops all services
started so far in reverse order before returning, and returns a failure
result listing the started names and the failed name; when every service
starts it returns a success result listing all services as started. -/
theorem start_services_rollback (services : ServicesTable)
    (validationMsg : String) (env : String → Except String StartupResult) :
    (∀ (pre : List String) (x : String) (rest : List String),
      get_startup_order services = pre ++ x :: rest →
      (∀ s ∈ pre, ∃ r, env s = Except.ok r ∧ r.success = true) →
      startFailed (env x) = true →
      start_services services true validationMsg env =
        ({ success := false, message := "Failed to start: " ++ x,
           failed_services := [x], started_services := pre }, pre.reverse)) ∧
    ((∀ s ∈ get_startup_order services, ∃ r, env s = Except.ok r ∧ r.success = true) →
      start_services services true validationMsg env =
        ({ success := true, message := "All services started successfully",
           failed_services := [], started_services := get_startup_order services }, [])) := by
  constructor
  · intro pre x rest horder hpre hx
    rw [start_services]
    simp only [Bool.not_true, Bool.false_eq_true, if_false]
    rw [horder, start_services_go_first_fail env pre x rest [] hpre hx]
    rfl
  · intro hall
    rw [start_services]
    simp only [Bool.not_true, Bool.false_eq_true, if_false]
    rw [start_services_go_all_ok env (get_startup_order services) [] hall]
    rfl

/-- Witness for C1: the default table is exactly the A/B instance of the
claim — "backend" (A, no dependencies) starts, "frontend" (B, depends on
"backend") fails — so the call reports "backend" started, "frontend"
failed, and has stopped "backend" (rollback stop order `["backend"]`). -/
theorem start_services_rollback_witness :
    start_services defaultServices true ""
        (fun s =>
          if s = "backend" then
            Except.ok ({ success := true, message := "started" } : StartupResult)
          else
            Except.ok ({ success := false, message := "failed" } : StartupResult)) =
      ({ success := false, message := "Failed to start: frontend",
         failed_services := ["frontend"], started_services := ["backend"] },
       ["backend"]) := by
  have h := (start_services_rollback defaultServices ""
    (fun s =>
      if s = "backend" then
        Except.ok ({ success := true, message := "started" } : StartupResult)
      else
        Except.ok ({ success := false, message := "failed" } : StartupResult))).1
    ["backend"] "frontend" [] (by rfl)
    (by
      intro s hs
      have hsb : s = "backend" := by
        cases List.mem_singleton.mp hs
        rfl
      subst hsb
      exact ⟨{ success := true, message := "started" }, rfl, rfl⟩)
    (by rfl)
  exact h.trans (by rfl)

/-- C10: when dependency validation succeeds, then in the returned result
`started_services ++ failed_services` is a prefix of `get_startup_order()`,
the two lists are disjoint (given duplicate-free configured names),
`failed_services` has at most one element, and the success flag is true
exactly when `failed_services` is empty. -/
theorem start_services_invariants (services : ServicesTable)
    (validationMsg : String) (env : String → Except String StartupResult)
    (hnodup : (get_all_services services).Nodup) :
    (∃ t, ((start_services services true validationMsg env).1.started_services ++
        (start_services services true validationMsg env).1.failed_services) ++ t =
          get_startup_order services) ∧
    (∀ s ∈ (start_services services true validationMsg env).1.started_services,
      s ∉ (start_services services true validationMsg env).1.failed_services) ∧
    (start_services services true validationMsg env).1.failed_services.length ≤ 1 ∧
    ((start_services services true validationMsg env).1.success = true ↔
      (start_services services true validationMsg env).1.failed_services = []) := by
  have hgo : ∀ (l started : List String),
      ∃ p t, (start_services_go env l started).1 = started ++ p ∧
        (p ++ (start_services_go env l started).2.1) ++ t = l ∧
        (start_services_go env l started).2.1.length ≤ 1 := by
    intro l
    induction l with
    | nil =>
        intro started
        exact ⟨[], [], by simp [start_services_go], by simp [start_services_go],
          by simp [start_services_go]⟩
    | cons name rest ih =>
        intro started
        cases henv : env name with
        | ok r =>
            cases hs : r.success with
            | true =>
                obtain ⟨p, t, h1, h2, h3⟩ := ih (started ++ [name])
                refine ⟨name :: p, t, ?_, ?_, ?_⟩
                · rw [start_services_go, henv]
                  simp only [hs, if_true]
                  rw [h1]
                  simp
                · rw [start_services_go, henv]
                  simp only [hs, if_true]
                  rw [List.cons_append, List.cons_append, h2]
                · rw [start_services_go, henv]
                  simp only [hs, if_true]
                  exact h3
            | false =>
                refine ⟨[], rest, ?_, ?_, ?_⟩ <;>
                  · rw [start_services_go, henv]
                    simp [hs]
        | error e =>
            refine ⟨[], rest, ?_, ?_, ?_⟩ <;>
              · rw [start_services_go, henv]
                simp
  obtain ⟨p, t, h1, h2, h3⟩ := hgo (get_startup_order services) []
  have hres : start_services services true validationMsg env =
      ({ success := (start_services_go env (get_startup_order services) []).2.1.isEmpty,
         message := if (start_services_go env (get_startup_order services) []).2.1.isEmpty
           then "All services started successfully"
           else "Failed to start: " ++
             String.intercalate ", " (start_services_go env (get_startup_order services) []).2.1,
         started_services := (start_services_go env (get_startup_order services) []).1,
         failed_services := (start_services_go env (get_startup_order services) []).2.1 },
       (start_services_go env (get_startup_order services) []).2.2) := by
    rfl
  rw [hres]
  dsimp only
  rw [h1]
  simp only [List.nil_append]
  have hfullpref : (p ++ (start_services_go env (get_startup_order services) []).2.1) ++ t =
      get_startup_order services := h2
  have hnodup_order : (get_startup_order services).Nodup :=
    (get_startup_order_perm services).symm.nodup hnodup
  have hnodup_pf : (p ++ (start_services_go env (get_startup_order services) []).2.1).Nodup := by
    refine List.Nodup.sublist ?_ hnodup_order
    have hsub := List.sublist_append_left
      (p ++ (start_services_go env (get_startup_order services) []).2.1) t
    rwa [hfullpref] at hsub
  have hdisj := (List.nodup_append.mp hnodup_pf).2.2
  refine ⟨⟨t, hfullpref⟩, ?_, h3, ?_⟩
  · intro s hsp hsf
    exact hdisj hsp hsf
  · rw [List.isEmpty_iff]

/-- Witness for C10 at the default table with a failing "frontend". -/
theorem start_services_invariants_witness :
    ((start_services defaultServices true ""
        (fun s =>
          if s = "backend" then
            Except.ok ({ success := true, message := "started" } : StartupResult)
          else
            Except.ok ({ success := false, message := "failed" } : StartupResult))).1.failed_services.length ≤ 1) ∧
    ((start_services defaultServices true ""
        (fun s =>
          if s = "backend" then
            Except.ok ({ success := true, message := "started" } : StartupResult)
          else
            Except.ok ({ success := false, message := "failed" } : StartupResult))).1.success = true ↔
      (start_services defaultServices true ""
        (fun s =>
          if s = "backend" then
            Except.ok ({ success := true, message := "started" } : StartupResult)
          else
            Except.ok ({ success := false, message := "failed" } : StartupResult))).1.failed_services = []) := by
  have h := start_services_invariants defaultServices ""
    (fun s =>
      if s = "backend" then
        Except.ok ({ success := true, message := "started" } : StartupResult)
      else
        Except.ok ({ success := false, message := "failed" } : StartupResult))
    (by decide)
  exact ⟨h.2.2.1, h.2.2.2⟩

/-! ## Overall status (`HealthMonitor._determine_overall_status`) -/

/-- The `HealthMonitor._determine_overall_status`: critical issues, then the
running count, then warnings.  The dependency status argument is accepted
but unused, as in the source. -/
def determine_overall_status (service_health : List (String × ServiceHealth))
    (dependency_status : DependencyStatus) (issues : List Issue) : OverallStatus :=
  if !(issues.filter (fun i => i.severity == IssueSeverity.critical)).isEmpty then
    OverallStatus.unhealthy
  else
    let running_services :=
      (service_health.map Prod.snd).countP (fun h => h.status == ServiceStatus.running)
    let total_services := service_health.length
    if running_services == 0 then OverallStatus.unhealthy
    else if running_services < total_services then OverallStatus.degraded
    else if !(issues.filter (fun i => i.severity == IssueSeverity.warning)).isEmpty then
      OverallStatus.degraded
    else OverallStatus.healthy

/-- C2: the overall status follows the strict precedence — any critical
issue gives `unhealthy`; else zero running services gives `unhealthy`;
else some-but-not-all running gives `degraded`; else any warning issue
gives `degraded`; otherwise `healthy`. -/
theorem overall_status_precedence
    (service_health : List (String × ServiceHealth))
    (dependency_status : DependencyStatus) (issues : List Issue) :
    ((∃ i ∈ issues, i.severity = IssueSeverity.critical) →
      determine_overall_status service_health dependency_status issues =
        OverallStatus.unhealthy) ∧
    ((∀ i ∈ issues, i.severity ≠ IssueSeverity.critical) →
     (∀ p ∈ service_health, p.2.status ≠ ServiceStatus.running) →
      determine_overall_status service_health dependency_status issues =
        OverallStatus.unhealthy) ∧
    ((∀ i ∈ issues, i.severity ≠ IssueSeverity.critical) →
     (∃ p ∈ service_health, p.2.status = ServiceStatus.running) →
     (∃ p ∈ service_health, p.2.status ≠ ServiceStatus.running) →
      determine_overall_status service_health dependency_status issues =
        OverallStatus.degraded) ∧
    ((∀ i ∈ issues, i.severity ≠ IssueSeverity.critical) →
     service_health ≠ [] →
     (∀ p ∈ service_health, p.2.status = ServiceStatus.running) →
     (∃ i ∈ issues, i.severity = IssueSeverity.warning) →
      determine_overall_status service_health dependency_status issues =
        OverallStatus.degraded) ∧
    ((∀ i ∈ issues, i.severity ≠ IssueSeverity.critical) →
     service_health ≠ [] →
     (∀ p ∈ service_health, p.2.status = ServiceStatus.running) →
     (∀ i ∈ issues, i.severity ≠ IssueSeverity.warning) →
      determine_overall_status service_health dependency_status issues =
        OverallStatus.healthy) := by
  refine ⟨?_, ?_, ?_, ?_, ?_⟩
  · rintro ⟨i, hi, hsev⟩
    have hmem : i ∈ issues.filter (fun i => i.severity == IssueSeverity.critical) :=
      List.mem_filter.mpr ⟨hi, by simp [hsev]⟩
    have hne : (issues.filter (fun i => i.severity == IssueSeverity.critical)).isEmpty = false :=
      List.isEmpty_eq_false.mpr (List.ne_nil_of_mem hmem)
    simp [determine_overall_status, hne]
  all_goals
    intro hnocrit
    have hcrit : (issues.filter (fun i => i.severity == IssueSeverity.critical)).isEmpty = true := by
      have : issues.filter (fun i => i.severity == IssueSeverity.critical) = [] := by
        rw [List.filter_eq_nil_iff]
        intro i hi
        simp [hnocrit i hi]
      rw [this]
      rfl
  · intro hnone
    have hzero : (service_health.map Prod.snd).countP
        (fun h => h.status == ServiceStatus.running) = 0 := by
      rw [List.countP_eq_zero]
      intro h hh
      obtain ⟨p, hp, hph⟩ := List.mem_map.mp hh
      rw [← hph]
      simp [hnone p hp]
    simp [determine_overall_status, hcrit, hzero]
  · rintro ⟨p, hp, hps⟩ ⟨q, hq, hqs⟩
    have hpos : 0 < (service_health.map Prod.snd).countP
        (fun h => h.status == ServiceStatus.running) := by
      rw [List.countP_pos_iff]
      exact ⟨p.2, List.mem_map_of_mem Prod.snd hp, by simp [hps]⟩
    have hlt : (service_health.map Prod.snd).countP
        (fun h => h.status == ServiceStatus.running) < service_health.length := by
      have hle : (service_health.map Prod.snd).countP
          (fun h => h.status == ServiceStatus.running) ≤ service_health.length := by
        have := List.countP_le_length
          (fun h : ServiceHealth => h.status == ServiceStatus.running)
          (l := service_health.map Prod.snd)
        simpa using this
      have hne : (service_health.map Prod.snd).countP
          (fun h => h.status == ServiceStatus.running) ≠ service_health.length := by
        intro heq
        have hall : ∀ h ∈ service_health.map Prod.snd,
            (h.status == ServiceStatus.running) = true := by
          rw [← List.countP_eq_length]
          rw [heq, List.length_map]
        have := hall q.2 (List.mem_map_of_mem Prod.snd hq)
        simp at this
        exact hqs this
      omega
    have hz : ((service_health.map Prod.snd).countP
        (fun h => h.status == ServiceStatus.running) == 0) = false := by
      rw [beq_eq_false_iff_ne]
      omega
    simp only [determine_overall_status, hcrit, Bool.not_true, Bool.false_eq_true,
      if_false, hz, hlt, if_true]
  all_goals
    intro hne_nil hall
    have hfull : (service_health.map Prod.snd).countP
        (fun h => h.status == ServiceStatus.running) = service_health.length := by
      have : ∀ h ∈ service_health.map Prod.snd,
          (h.status == ServiceStatus.running) = true := by
        intro h hh
        obtain ⟨p, hp, hph⟩ := List.mem_map.mp hh
        rw [← hph]
        simp [hall p hp]
      rw [List.countP_eq_length.mpr this, List.length_map]
    have hlen : service_health.length ≠ 0 := by
      intro h0
      exact hne_nil (List.length_eq_zero.mp h0)
    have hz : ((service_health.map Prod.snd).countP
        (fun h => h.status == ServiceStatus.running) == 0) = false := by
      rw [beq_eq_false_iff_ne, hfull]
      exact hlen
    have hlenz : (service_health.length == 0) = false :=
      beq_eq_false_iff_ne.mpr hlen
  · rintro ⟨i, hi, hsev⟩
    have hmem : i ∈ issues.filter (fun i => i.severity == IssueSeverity.warning) :=
      List.mem_filter.mpr ⟨hi, by simp [hsev]⟩
    have hw : (issues.filter (fun i => i.severity == IssueSeverity.warning)).isEmpty = false :=
      List.isEmpty_eq_false.mpr (List.ne_nil_of_mem hmem)
    simp only [determine_overall_status, hcrit, Bool.not_true, Bool.not_false,
      Bool.false_eq_true, if_false, hz, hfull, hlenz, lt_self_iff_false, if_true, hw]
  · intro hnowarn
    have hw : (issues.filter (fun i => i.severity == IssueSeverity.warning)).isEmpty = true := by
      have : issues.filter (fun i => i.severity == IssueSeverity.warning) = [] := by
        rw [List.filter_eq_nil_iff]
        intro i hi
        simp [hnowarn i hi]
      rw [this]
      rfl
    simp only [determine_overall_status, hcrit, Bool.not_true, Bool.not_false,
      Bool.false_eq_true, if_false, hz, hfull, hlenz, lt_self_iff_false, if_true, hw]

/-- Witness for C2, following the truth table of the spec on a two-service map:
both running and no issues gives `healthy`; one of two running gives
`degraded`; zero of two running gives `unhealthy`; a critical issue forces
`unhealthy` even with every service running. -/
theorem overall_status_precedence_witness :
    determine_overall_status
        [("backend", { name := "backend", status := ServiceStatus.running,
                       port := 8000, url := "u" }),
         ("frontend", { name := "frontend", status := ServiceStatus.running,
                        port := 5173, url := "v" })] {} [] =
      OverallStatus.healthy ∧
    determine_overall_status
        [("backend", { name := "backend", status := ServiceStatus.running,
                       port := 8000, url := "u" }),
         ("frontend", { name := "frontend", status := ServiceStatus.stopped,
                        port := 5173, url := "v" })] {} [] =
      OverallStatus.degraded ∧
    determine_overall_status
        [("backend", { name := "backend", status := ServiceStatus.stopped,
                       port := 8000, url := "u" }),
         ("frontend", { name := "frontend", status := ServiceStatus.stopped,
                        port := 5173, url := "v" })] {} [] =
      OverallStatus.unhealthy ∧
    determine_overall_status
        [("backend", { name := "backend", status := ServiceStatus.running,
                       port := 8000, url := "u" }),
         ("frontend", { name := "frontend", status := ServiceStatus.running,
                        port := 5173, url := "v" })] {}
        [{ severity := IssueSeverity.critical, component := "c",
           message := "m", suggested_action := "a" }] =
      OverallStatus.unhealthy := by
  refine ⟨?_, ?_, ?_, ?_⟩
  · exact (overall_status_precedence _ {} []).2.2.2.2 (by decide) (by decide)
      (by decide) (by decide)
  · exact (overall_status_precedence _ {} []).2.2.1 (by decide) (by decide) (by decide)
  · exact (overall_status_precedence _ {} []).2.1 (by decide) (by decide)
  · exact (overall_status_precedence _ {} _).1 (by decide)

/-! ## Health sweep (`HealthMonitor._check_all_services`) -/

/-- The `for service_name in self.config.get_all_services():` loop of
`HealthMonitor._check_all_services`, over an explicit name list.  `check`
is `ServiceManager.check_service_health` (which may raise); a raised
exception is caught and converted into an `Error`-status entry whose port
comes from `get_service_config` (itself fallible). -/
def check_all_services_go (services : ServicesTable)
    (check : String → Except String ServiceHealth) (now : Nat) :
    List String → Except String (List (String × ServiceHealth))
  | [] => Except.ok []
  | name :: rest =>
      match
        (match check name with
         | Except.ok health => Except.ok (name, health)
         | Except.error e =>
             match get_service_config services name with
             | Except.error e' => Except.error e'
             | Except.ok config =>
                 Except.ok (name,
                   { name := name, status := ServiceStatus.error, port := config.port,
                     url := "http://localhost:" ++ toString config.port,
                     error_message := some e, last_check := some now })) with
      | Except.error e => Except.error e
      | Except.ok entry =>
          match check_all_services_go services check now rest with
          | Except.error e => Except.error e
          | Except.ok rest' => Except.ok (entry :: rest')

/-- The `HealthMonitor._check_all_services`: the sweep over all configured
services. -/
def check_all_services (services : ServicesTable)
    (check : String → Except String ServiceHealth) (now : Nat) :
    Except String (List (String × ServiceHealth)) :=
  check_all_services_go services check now (get_all_services services)

/-- The entry the sweep records for one service (helper for stating the
sweep behaviour). -/
def sweepEntry (services : ServicesTable)
    (check : String → Except String ServiceHealth) (now : Nat)
    (name : String) : ServiceHealth :=
  match check name with
  | Except.ok health => health
  | Except.error e =>
      { name := name, status := ServiceStatus.error,
        port := (match services.lookup name with | some c => c.port | none => 0),
        url := "http://localhost:" ++
          toString (match services.lookup name with | some c => c.port | none => 0),
        error_message := some e, last_check := some now }

theorem check_all_services_go_eq (services : ServicesTable)
    (check : String → Except String ServiceHealth) (now : Nat) :
    ∀ (names : List String),
      (∀ n ∈ names, ∃ c, services.lookup n = some c) →
      check_all_services_go services check now names =
        Except.ok (names.map (fun n => (n, sweepEntry services check now n))) := by
  intro names
  induction names with
  | nil => intro _; rfl
  | cons name rest ih =>
      intro hconf
      obtain ⟨c, hc⟩ := hconf name (List.mem_cons_self _ _)
      rw [check_all_services_go]
      rw [ih (fun n hn => hconf n (List.mem_cons_of_mem _ hn))]
      cases hch : check name with
      | ok health => simp [sweepEntry, hch]
      | error e =>
          have hcfg : get_service_config services name = Except.ok c := by
            rw [get_service_config, hc]
          simp [sweepEntry, hch, hcfg, hc]

theorem lookup_map_self (f : String → ServiceHealth) :
    ∀ (names : List String) (n : String), n ∈ names →
      (names.map (fun x => (x, f x))).lookup n = some (f n) := by
  intro names
  induction names with
  | nil => intro n hn; simp at hn
  | cons a t ih =>
      intro n hn
      by_cases hna : n = a
      · subst hna
        simp [List.lookup]
      · have hbeq : (n == a) = false := by simpa using hna
        have hnt : n ∈ t := by
          rcases List.mem_cons.mp hn with h | h
          · exact absurd h hna
          · exact h
        simp [List.lookup, hbeq, ih n hnt]

/-- C8: if the health check for service `X` raises, the sweep still
returns (never raises), the snapshot has one entry per configured service
in order, the entry for `X` is an `Error`-status `ServiceHealth` carrying the
exception message, and every service whose own check returns normally
keeps exactly its own result. -/
theorem sweep_isolation (services : ServicesTable)
    (check : String → Except String ServiceHealth) (now : Nat)
    (X : String) (msg : String)
    (hX : X ∈ get_all_services services) (hXerr : check X = Except.error msg) :
    ∃ l, check_all_services services check now = Except.ok l ∧
      l.map Prod.fst = get_all_services services ∧
      (∃ c, services.lookup X = some c ∧
        l.lookup X = some
          { name := X, status := ServiceStatus.error, port := c.port,
            url := "http://localhost:" ++ toString c.port,
            error_message := some msg, last_check := some now }) ∧
      (∀ n h, n ∈ get_all_services services → check n = Except.ok h →
        l.lookup n = some h) := by
  have hconf : ∀ n ∈ get_all_services services, ∃ c, services.lookup n = some c :=
    fun n hn => lookup_some_of_mem_keys services n hn
  have heq := check_all_services_go_eq services check now (get_all_services services) hconf
  refine ⟨(get_all_services services).map
    (fun n => (n, sweepEntry services check now n)), heq, ?_, ?_, ?_⟩
  · rw [List.map_map]
    have : (Prod.fst ∘ fun n => (n, sweepEntry services check now n)) = id := rfl
    rw [this, List.map_id]
  · obtain ⟨c, hc⟩ := hconf X hX
    refine ⟨c, hc, ?_⟩
    rw [lookup_map_self (sweepEntry services check now) (get_all_services services) X hX]
    rw [sweepEntry, hXerr, hc]
  · intro n h hn hok
    rw [lookup_map_self (sweepEntry services check now) (get_all_services services) n hn]
    rw [sweepEntry, hok]

/-- Witness for C8: against the default table, a check that raises for
"backend" and returns a running entry for "frontend" yields a full
snapshot with an `Error` entry for "backend" and the returned entry for
"frontend". -/
theorem sweep_isolation_witness :
    ∃ l, check_all_services defaultServices
        (fun n =>
          if n = "backend" then Except.error "boom"
          else Except.ok { name := n, status := ServiceStatus.running,
                           port := 5173, url := "v" }) 7 = Except.ok l ∧
      l.map Prod.fst = ["backend", "frontend"] ∧
      l.lookup "backend" = some
        { name := "backend", status := ServiceStatus.error, port := 8000,
          url := "http://localhost:8000", error_message := some "boom",
          last_check := some 7 } ∧
      l.lookup "frontend" = some
        { name := "frontend", status := ServiceStatus.running,
          port := 5173, url := "v" } := by
  obtain ⟨l, h1, h2, ⟨c, hc, h3⟩, h4⟩ := sweep_isolation defaultServices
    (fun n =>
      if n = "backend" then Except.error "boom"
      else Except.ok { name := n, status := ServiceStatus.running,
                       port := 5173, url := "v" }) 7 "backend" "boom"
    (by decide) (by rfl)
  have hcval : c = backendConfig := by
    have hlk : List.lookup "backend" defaultServices = some backendConfig := by rfl
    rw [hlk] at hc
    exact (Option.some.inj hc).symm
  refine ⟨l, h1, by rw [h2]; rfl, ?_, ?_⟩
  · rw [h3, hcval]
    rfl
  · have := h4 "frontend"
      { name := "frontend", status := ServiceStatus.running, port := 5173, url := "v" }
      (by decide) (by rfl)
    exact this

/-! ## Status cache (`HealthMonitor.get_system_status`) -/

/-- the Python `timedelta.seconds` for a non-negative difference of whole
seconds: the seconds component after whole days are removed.  This is what
`get_system_status` compares against 60 —
`(datetime.now() - self._last_health_check).seconds`. -/
def timedelta_seconds (delta : Nat) : Nat := delta % 86400

/-- The cache decision of `HealthMonitor.get_system_status`: recompute
(`fresh`, the result of `check_system_health`) when there is no cached
snapshot, no recorded check time, or the `.seconds` component of the age
exceeds 60; otherwise return the cached snapshot.  Times are second
counts with `now` at least the recorded check time. -/
def get_system_status_health (cached_status : Option HealthStatus)
    (last_health_check : Option Nat) (now : Nat) (fresh : HealthStatus) :
    HealthStatus :=
  match cached_status, last_health_check with
  | some cached, some last =>
      if timedelta_seconds (now - last) > 60 then fresh else cached
  | some _, none => fresh
  | none, _ => fresh

/-- A cached snapshot and a distinct fresh one, for exercising the cache
decision. -/
def cachedSnapshot : HealthStatus := { overall_status := OverallStatus.unhealthy }

/-- See `cachedSnapshot`. -/
def freshSnapshot : HealthStatus := { overall_status := OverallStatus.healthy }

/-- C6 (settled as a code bug): the staleness test uses the
`timedelta.seconds` component instead of the total age, so a snapshot that
is exactly one day old (86400 s, far beyond the 60 s window) is still
served from the cache instead of being recomputed; within the first day
the decision does follow the 60-second window (ages 60 and 61 shown). -/
theorem get_system_status_stale_cache_bug :
    get_system_status_health (some cachedSnapshot) (some 0) 86400 freshSnapshot =
      cachedSnapshot ∧
    86400 > 60 ∧
    cachedSnapshot ≠ freshSnapshot ∧
    get_system_status_health (some cachedSnapshot) (some 0) 60 freshSnapshot =
      cachedSnapshot ∧
    get_system_status_health (some cachedSnapshot) (some 0) 61 freshSnapshot =
      freshSnapshot ∧
    get_system_status_health none none 0 freshSnapshot = freshSnapshot := by
  refine ⟨by rfl, by decide, by decide, by rfl, by rfl, by rfl⟩

/-! ## Credential check (`DependencyValidator.check_api_keys`) -/

/-- The `APIProvider` enum from `api_key_manager.py`. -/
inductive APIProvider where
  | openai
  | anthropic
  | huggingface
  | cohere
  | mistral
  | gemini
deriving DecidableEq

/-- The `.value` string of each `APIProvider`. -/
def APIProvider.value : APIProvider → String
  | APIProvider.openai => "openai"
  | APIProvider.anthropic => "anthropic"
  | APIProvider.huggingface => "huggingface"
  | APIProvider.cohere => "cohere"
  | APIProvider.mistral => "mistral"
  | APIProvider.gemini => "gemini"

/-- The `APIKeyInfo` dataclass from `api_key_manager.py`. -/
structure APIKeyInfo where
  provider : APIProvider
  key_hash : String
  masked_key : String
  is_valid : Bool
  last_validated : Option Nat := none
  validation_error : Option String := none
deriving DecidableEq

/-- A Python dataclass `__init__` call with the given keyword-argument
names: raises `TypeError` when a keyword is not a declared field. -/
def init_kwargs_check (field_names kwargs : List String) : Except String Unit :=
  match kwargs.find? (fun k => !field_names.contains k) with
  | some k => Except.error ("TypeError: unexpected keyword argument " ++ k)
  | none => Except.ok ()

/-- The `DependencyValidator.check_api_keys`.  `get_key_info` abstracts
`APIKeyManager.get_key_info`.  Both return paths construct
`DependencyStatus` with the keyword `api_keys_ok`, which is not a field of
the dataclass, so the construction raises `TypeError`; the intended result
values follow the other keywords of the source. -/
def check_api_keys (get_key_info : APIProvider → Option APIKeyInfo) :
    Except String DependencyStatus :=
  let providers := [APIProvider.openai, APIProvider.mistral,
    APIProvider.gemini, APIProvider.anthropic]
  let available_providers := (providers.filter (fun p =>
    match get_key_info p with
    | some k => k.is_valid
    | none => false)).map APIProvider.value
  let missing_providers := (providers.filter (fun p =>
    !(match get_key_info p with
      | some k => k.is_valid
      | none => false))).map APIProvider.value
  if available_providers.isEmpty then
    match init_kwargs_check dependencyStatusFieldNames
        ["api_keys_ok", "missing_api_keys"] with
    | Except.error e => Except.error e
    | Except.ok _ =>
        Except.ok { missing_api_keys :=
          ["No valid API keys found. Please configure at least one API key in the Health Monitor."] }
  else
    match init_kwargs_check dependencyStatusFieldNames
        ["api_keys_ok", "missing_api_keys", "api_keys_configured"] with
    | Except.error e => Except.error e
    | Except.ok _ =>
        have _unused := missing_providers
        Except.ok { api_keys_configured := true, missing_api_keys := [] }

/-- C7 (settled as a code bug): `check_api_keys` never returns a
`DependencyStatus` at all — on every input, valid keys or not, both return
paths pass the nonexistent keyword `api_keys_ok` to the `DependencyStatus`
constructor and therefore raise `TypeError`. -/
theorem check_api_keys_always_raises
    (get_key_info : APIProvider → Option APIKeyInfo) :
    check_api_keys get_key_info =
      Except.error "TypeError: unexpected keyword argument api_keys_ok" := by
  have hkw1 : init_kwargs_check dependencyStatusFieldNames
      ["api_keys_ok", "missing_api_keys"] =
      Except.error "TypeError: unexpected keyword argument api_keys_ok" := by rfl
  have hkw2 : init_kwargs_check dependencyStatusFieldNames
      ["api_keys_ok", "missing_api_keys", "api_keys_configured"] =
      Except.error "TypeError: unexpected keyword argument api_keys_ok" := by rfl
  rw [check_api_keys]
  split
  · rw [hkw1]
  · rw [hkw2]

/-- Concrete evaluation: with a valid openai key configured, the check
still raises instead of reporting the credentials as configured. -/
theorem check_api_keys_concrete_eval :
    check_api_keys (fun p =>
      if p = APIProvider.openai then
        some { provider := APIProvider.openai, key_hash := "h",
               masked_key := "m", is_valid := true }
      else none) =
      Except.error "TypeError: unexpected keyword argument api_keys_ok" := by
  rfl

end HealthMonitoring
